import Mathlib

/-!
Verification of the `structs` package's `Field` type (`field.go`).

The embedding models Go values of the kinds the package manipulates
(ints, bools, strings and nested structs; the universe has no pointer
values, so `reflect.Ptr` branches in the source are represented but never
taken), models `reflect.Value` handles as either addressable references
into a root record's storage or detached copies, and translates each
method of `field.go` into a Lean function.  Stateful mutation is explicit
state passing: `Set` takes the root record's storage and returns the new
storage together with the outcome.  Go panics are modelled as an explicit
`panicked` outcome (or `none` where the source returns nothing).
-/

set_option linter.unusedVariables false
set_option linter.dupNamespace false

namespace Structs

/-- Metadata of one struct field (`reflect.StructField`): name, `PkgPath`
(empty iff exported), the anonymous/embedded flag, and the struct tag.
The tag is modelled in parsed form, as the key to value association that
`reflect.StructTag.Get` exposes. -/
structure StructField where
  name : String
  pkgPath : String
  anonymous : Bool
  tag : List (String × String)
deriving DecidableEq, Repr

/-! A runtime Go value of the kinds exercised by the package: primitives
and structs whose fields (in declared order) pair their metadata with
their current value. -/
mutual
inductive Val where
  | vint (n : Int)
  | vbool (b : Bool)
  | vstr (s : String)
  | vstruct (fields : Fields)
deriving DecidableEq, Repr
inductive Fields where
  | nil
  | cons (sf : StructField) (v : Val) (rest : Fields)
deriving DecidableEq, Repr
end

/-! A Go type of the kinds exercised by the package. -/
mutual
inductive Ty where
  | tint
  | tbool
  | tstr
  | tstruct (fields : TFields)
deriving DecidableEq, Repr
inductive TFields where
  | nil
  | cons (sf : StructField) (t : Ty) (rest : TFields)
deriving DecidableEq, Repr
end

/-! The dynamic type of a value (`reflect.Value.Type`). -/
mutual
def Val.typeOf : Val → Ty
  | .vint _ => .tint
  | .vbool _ => .tbool
  | .vstr _ => .tstr
  | .vstruct fs => .tstruct fs.typeOf
def Fields.typeOf : Fields → TFields
  | .nil => .nil
  | .cons sf v rest => .cons sf v.typeOf rest.typeOf
end

/-! The zero value of a type (`reflect.Zero`): every field of a struct is
recursively zeroed. -/
mutual
def Ty.zero : Ty → Val
  | .tint => .vint 0
  | .tbool => .vbool false
  | .tstr => .vstr ""
  | .tstruct fs => .vstruct fs.zero
def TFields.zero : TFields → Fields
  | .nil => .nil
  | .cons sf t rest => .cons sf t.zero rest.zero
end

/-- Go assignability (`reflect.Type.AssignableTo`).  In this universe there
are no named types, interfaces or channels, so Go's assignability rule
coincides with type identity. -/
def Ty.assignableTo (a b : Ty) : Bool := decide (a = b)

/-- `reflect.DeepEqual`: on a universe without pointers, functions or
floating point this is exactly recursive structural equality. -/
def reflectDeepEqual (a b : Val) : Bool := decide (a = b)

/-- The coarse kind classification (`reflect.Kind`).  `ptr` appears only so
the `reflect.Ptr` tests of the source can be written; no value in this
universe has it. -/
inductive Kind where
  | int
  | bool
  | string
  | struct
  | ptr
deriving DecidableEq, Repr

/-- The kind of a value (`reflect.Value.Kind`). -/
def Val.kind : Val → Kind
  | .vint _ => .int
  | .vbool _ => .bool
  | .vstr _ => .string
  | .vstruct _ => .struct

/-- First field with the given name, with its metadata
(`reflect.Type.FieldByName` restricted to immediate fields; embedded-field
promotion is outside this embedding, matching the spec's "only the
immediate children"). -/
def Fields.get? : Fields → String → Option (StructField × Val)
  | .nil, _ => none
  | .cons sf v rest, n => if sf.name = n then some (sf, v) else rest.get? n

/-- Replace the value stored under the first field with the given name. -/
def Fields.set : Fields → String → Val → Fields
  | .nil, _, _ => .nil
  | .cons sf v rest, n, w =>
      if sf.name = n then .cons sf w rest else .cons sf v (rest.set n w)

/-- Read an immediate field of a struct value. -/
def Val.getField (v : Val) (n : String) : Option Val :=
  match v with
  | .vstruct fs => (fs.get? n).map (·.2)
  | _ => none

/-- Write an immediate field of a struct value. -/
def Val.setField (v : Val) (n : String) (w : Val) : Val :=
  match v with
  | .vstruct fs => .vstruct (fs.set n w)
  | _ => v

/-- Read the value stored at a field path from the root record. -/
def Val.getPath : Val → List String → Option Val
  | v, [] => some v
  | v, n :: p =>
      match v.getField n with
      | some sub => sub.getPath p
      | none => none

/-- Overwrite the value stored at a field path of the root record. -/
def Val.setPath : Val → List String → Val → Val
  | _, [], w => w
  | v, n :: p, w =>
      match v.getField n with
      | some sub => v.setField n (sub.setPath p w)
      | none => v

/-- A `reflect.Value` handle.  `ref path ro` is addressable storage: the
location reached from the root record by following `path`; `copy v ro` is a
detached, non-addressable copy holding `v`.  `ro` models reflect's
read-only flag, set on values reached through an unexported field, which
makes `Interface` panic and `CanSet` false. -/
inductive RefValue where
  | ref (path : List String) (ro : Bool)
  | copy (v : Val) (ro : Bool)
deriving DecidableEq, Repr

/-- The read-only flag of a handle. -/
def RefValue.ro : RefValue → Bool
  | .ref _ r => r
  | .copy _ r => r

/-- `reflect.Value.CanAddr`: only references into real storage are
addressable. -/
def RefValue.canAddr : RefValue → Bool
  | .ref _ _ => true
  | .copy _ _ => false

/-- `reflect.Value.CanSet`: addressable and not read-only. -/
def RefValue.canSet : RefValue → Bool
  | .ref _ r => !r
  | .copy _ _ => false

/-- The value a handle currently designates, relative to the root record's
storage (`none` only for a dangling path, a modelling artifact the theorems
rule out by hypothesis). -/
def RefValue.read (rv : RefValue) (root : Val) : Option Val :=
  match rv with
  | .ref path _ => root.getPath path
  | .copy v _ => some v

/-- `reflect.Value.Interface`: panics (`none`) on a read-only handle. -/
def RefValue.interface (rv : RefValue) (root : Val) : Option Val :=
  if rv.ro then none else rv.read root

/-- Overwrite the storage a handle designates (the effect of
`reflect.Value.Set` on the root record; writing through a detached copy
leaves the root unchanged, but `canSet` already rules that out). -/
def RefValue.write (rv : RefValue) (root : Val) (v : Val) : Val :=
  match rv with
  | .ref path _ => root.setPath path v
  | .copy _ _ => root

/-- The handle `reflect.Value.FieldByName` returns for field `sf` (holding
`w`) of the struct behind `rv`: the path grows by the field's name, and the
read-only flag propagates, switched on for unexported fields. -/
def RefValue.child (rv : RefValue) (sf : StructField) (w : Val) : RefValue :=
  match rv with
  | .ref path ro => .ref (path ++ [sf.name]) (ro || !(sf.pkgPath = ""))
  | .copy _ ro => .copy w (ro || !(sf.pkgPath = ""))

/-- The `Field` struct of field.go: a value handle, the field's static
metadata, and the default tag key used when recursing. -/
structure Field where
  value : RefValue
  field : StructField
  defaultTag : String
deriving DecidableEq, Repr

/-- The two sentinel errors of field.go plus the formatted type-mismatch
error `fmt.Errorf("can't assign %s to %s", ...)`, which carries the offered
and the required type. -/
inductive SetError where
  | NotExported
  | NotSettable
  | TypeMismatch (offered required : Ty)
deriving DecidableEq, Repr

/-- Outcome of a mutating call: normal return without error, a returned
error, or a Go panic. -/
inductive SetResult where
  | ok
  | err (e : SetError)
  | panicked (msg : String)
deriving DecidableEq, Repr

/-- Outcome of `Field.Field`: a Go panic, the `nil` not-found sentinel, or
a found descriptor. -/
inductive LookupResult where
  | panicked (msg : String)
  | notFound
  | found (fd : Field)
deriving DecidableEq, Repr

/-- `reflect.StructTag.Get`: the value associated with the key, or the
empty string when the key is absent. -/
def tagGet (tag : List (String × String)) (key : String) : String :=
  match tag.find? (fun p => p.1 = key) with
  | some p => p.2
  | none => ""

/-- `Field.Tag`. -/
def Field.Tag (f : Field) (key : String) : String :=
  tagGet f.field.tag key

/-- `Field.Value`: `f.value.Interface()`; panics (`none`) when the handle
is read-only, which is how reflect signals a read of an unexported field. -/
def Field.Value (f : Field) (root : Val) : Option Val :=
  f.value.interface root

/-- `Field.IsEmbedded`. -/
def Field.IsEmbedded (f : Field) : Bool :=
  f.field.anonymous

/-- `Field.IsExported`: `f.field.PkgPath == ""`. -/
def Field.IsExported (f : Field) : Bool :=
  f.field.pkgPath = ""

/-- `Field.Name`. -/
def Field.Name (f : Field) : String :=
  f.field.name

/-- `Field.Kind` (`none` only on a dangling handle). -/
def Field.Kind (f : Field) (root : Val) : Option Kind :=
  (f.value.read root).map Val.kind

/-- `Field.IsZero`: compares the current value (`f.Value()`, which panics
on an unexported read) with `reflect.Zero(f.value.Type()).Interface()`
under `reflect.DeepEqual`. -/
def Field.IsZero (f : Field) (root : Val) : Option Bool :=
  match f.value.read root, f.Value root with
  | some stored, some current =>
      some (reflectDeepEqual current (Ty.zero stored.typeOf))
  | _, _ => none

/-- `Field.Set`: in order, fails with the not-exported sentinel, then the
not-settable sentinel, then (after `reflect.ValueOf(val).Type()`, which
panics when `val` is the nil interface) the type-mismatch error; otherwise
writes the value into the field's storage.  The root storage is threaded
explicitly; every non-`ok` branch returns it unchanged. -/
def Field.Set (f : Field) (root : Val) (val : Option Val) : SetResult × Val :=
  if !f.IsExported then (.err .NotExported, root)
  else if !f.value.canSet then (.err .NotSettable, root)
  else
    match val with
    | none => (.panicked "reflect: call of reflect.Value.Type on zero Value", root)
    | some v =>
        match f.value.read root with
        | none => (.panicked "dangling handle", root)
        | some stored =>
            if !(v.typeOf.assignableTo stored.typeOf) then
              (.err (.TypeMismatch v.typeOf stored.typeOf), root)
            else (.ok, f.value.write root v)

/-- `Field.Zero`: computes `reflect.Zero(f.value.Type()).Interface()` and
delegates to `Set`. -/
def Field.Zero (f : Field) (root : Val) : SetResult × Val :=
  match f.value.read root with
  | none => (.panicked "dangling handle", root)
  | some stored => f.Set root (some (Ty.zero stored.typeOf))

/-- Modelled from the spec: `structVal` is defined in the repository
outside `field.go` (the root-wrapper file, absent from the given sources).
Per the spec it dereferences down to the structured-record value and treats
anything that is not one as a contract violation (panic, here `none`).  In
this pointer-free universe the dereferencing step is the identity. -/
def structVal (stored : Val) : Option Fields :=
  match stored with
  | .vstruct fs => some fs
  | _ => none

/-- Modelled from the spec: the enumeration loop of `getFields` (defined in
the repository outside `field.go`).  It walks the immediate fields in
declared order, skips every field whose tag value under the default key is
exactly "-", and wraps each remaining field as a descriptor inheriting the
same default tag key. -/
def getFieldsList (rv : RefValue) (tagName : String) : Fields → List Field
  | .nil => []
  | .cons sf w rest =>
      if tagGet sf.tag tagName = "-" then getFieldsList rv tagName rest
      else { value := rv.child sf w, field := sf, defaultTag := tagName } ::
        getFieldsList rv tagName rest

/-- Modelled from the spec: `getFields` resolves the handle to the struct
value behind it and enumerates via the skip-filtering loop; a non-struct
value is a contract violation (panic, `none`). -/
def getFields (rv : RefValue) (root : Val) (tagName : String) : Option (List Field) :=
  match rv.read root with
  | some stored =>
      match structVal stored with
      | some fs => some (getFieldsList rv tagName fs)
      | none => none
  | none => none

/-- `Field.Fields`: `getFields(f.value, f.defaultTag)`.  Per its doc
comment in field.go it panics (`none`) when the field is not exported or
its kind is not struct. -/
def Field.Fields (f : Field) (root : Val) : Option (List Field) :=
  if !f.IsExported then none
  else getFields f.value root f.defaultTag

/-- `Field.Field`: mirrors the source.  When the handle's kind is not
pointer it takes the handle's address (`Addr` panics on a non-addressable
handle), then `value.Interface()` (panics on a read-only handle), resolves
the struct via `structVal` (panics on a non-struct), looks the name up, and
returns `nil` (`notFound`) on a miss or a new descriptor built with the
struct literal of the source, whose omitted `defaultTag` is Go's zero
value "". -/
def Field.Field (f : Field) (root : Val) (name : String) : LookupResult :=
  match f.value.read root with
  | none => .panicked "dangling handle"
  | some stored =>
      if stored.kind ≠ Kind.ptr then
        if !f.value.canAddr then
          .panicked "reflect.Value.Addr of unaddressable value"
        else if f.value.ro then
          .panicked "reflect.Value.Interface of value obtained from unexported field"
        else
          match structVal stored with
          | none => .panicked "not struct"
          | some fs =>
              match fs.get? name with
              | none => .notFound
              | some (sf, w) =>
                  .found { value := f.value.child sf w, field := sf, defaultTag := "" }
      else
        -- dead in this universe: no value has pointer kind
        .panicked "pointer values are outside this embedding"

/-! Concrete records used to exercise the theorems on closed inputs.  They
follow the spec's running example: a record with an exported string field
`Name`, an exported int field `Age` tagged `tag:"-"`, an unexported field
`secret`, and a nested record `N` with an int field `X`. -/

/-- Metadata of the example's root record when wrapped as a field itself. -/
def sfRoot : StructField := ⟨"R", "", false, []⟩

/-- The exported `Name string` field. -/
def sfName : StructField := ⟨"Name", "", false, []⟩

/-- The exported `Age int` field carrying the skip marker under key "tag". -/
def sfAge : StructField := ⟨"Age", "", false, [("tag", "-")]⟩

/-- An unexported field (non-empty `PkgPath`). -/
def sfSecret : StructField := ⟨"secret", "main", false, []⟩

/-- The exported nested-record field `N`. -/
def sfN : StructField := ⟨"N", "", false, []⟩

/-- The exported `X int` field of the nested record. -/
def sfX : StructField := ⟨"X", "", false, []⟩

/-- The record `{ Name: "Ann", Age: 30, secret: 7 }`. -/
def rootAnn : Val :=
  .vstruct (.cons sfName (.vstr "Ann") (.cons sfAge (.vint 30)
    (.cons sfSecret (.vint 7) .nil)))

/-- The record `{ N: { X: 1 } }`. -/
def rootNested : Val :=
  .vstruct (.cons sfN (.vstruct (.cons sfX (.vint 1) .nil)) .nil)

/-- A descriptor whose addressable handle designates the whole `rootAnn`
record, with default tag key "tag". -/
def fAnn : Field := ⟨.ref [] false, sfRoot, "tag"⟩

/-- The descriptor of the `Name` field of `rootAnn`. -/
def fName : Field := ⟨.ref ["Name"] false, sfName, "tag"⟩

/-- The descriptor of the unexported `secret` field of `rootAnn`; its
handle carries reflect's read-only flag. -/
def fSecret : Field := ⟨.ref ["secret"] true, sfSecret, "tag"⟩

/-- A descriptor whose addressable handle designates the whole
`rootNested` record, with default tag key "structs". -/
def fRootNested : Field := ⟨.ref [] false, sfRoot, "structs"⟩

/-- The descriptor of the nested-record field `N` of `rootNested`. -/
def fN : Field := ⟨.ref ["N"] false, sfN, "structs"⟩

/-- The descriptor `Field(name)` builds for `X` under `fN` (note the empty
default tag key, Go's zero value for the omitted struct-literal field). -/
def fNX : Field := ⟨.ref ["N", "X"] false, sfX, ""⟩

/-- A descriptor holding a detached (non-addressable) copy of a struct. -/
def fCopy : Field := ⟨.copy (.vstruct .nil) false, sfRoot, ""⟩

/-- `rootNested` after writing 5 into `N.X`. -/
def rootNested5 : Val :=
  .vstruct (.cons sfN (.vstruct (.cons sfX (.vint 5) .nil)) .nil)

/-! Helper lemmas about the storage model. -/

theorem Fields.get?_name : ∀ (fs : Fields) (n : String) (sf : StructField) (v : Val),
    fs.get? n = some (sf, v) → sf.name = n
  | .nil, n, sf, v, h => by simp [Fields.get?] at h
  | .cons sf0 v0 rest, n, sf, v, h => by
      by_cases hn : sf0.name = n
      · simp [Fields.get?, hn] at h
        exact h.1 ▸ hn
      · simp [Fields.get?, hn] at h
        exact Fields.get?_name rest n sf v h

theorem Fields.get?_set : ∀ (fs : Fields) (n : String) (w : Val) (sf : StructField) (v : Val),
    fs.get? n = some (sf, v) → (fs.set n w).get? n = some (sf, w)
  | .nil, n, w, sf, v, h => by simp [Fields.get?] at h
  | .cons sf0 v0 rest, n, w, sf, v, h => by
      by_cases hn : sf0.name = n
      · simp [Fields.get?, hn] at h
        obtain ⟨h1, h2⟩ := h
        subst h1
        simp [Fields.set, Fields.get?, hn]
      · simp [Fields.get?, hn] at h
        simp [Fields.set, Fields.get?, hn]
        exact Fields.get?_set rest n w sf v h

theorem Val.getField_setField (v : Val) (n : String) (sub u : Val)
    (h : v.getField n = some sub) : (v.setField n u).getField n = some u := by
  cases v with
  | vstruct fs =>
      cases hget : fs.get? n with
      | none => simp [Val.getField, hget] at h
      | some pr =>
          obtain ⟨sf, v0⟩ := pr
          simp [Val.setField, Val.getField, Fields.get?_set fs n u sf v0 hget]
  | vint x => simp [Val.getField] at h
  | vbool x => simp [Val.getField] at h
  | vstr x => simp [Val.getField] at h

theorem Val.getPath_setPath : ∀ (p : List String) (v w x : Val),
    v.getPath p = some x → (v.setPath p w).getPath p = some w
  | [], v, w, x, h => rfl
  | n :: p, v, w, x, h => by
      cases hf : v.getField n with
      | none => simp [Val.getPath, hf] at h
      | some sub =>
          simp [Val.getPath, hf] at h
          simp [Val.setPath, hf, Val.getPath,
            Val.getField_setField v n sub (sub.setPath p w) hf]
          exact Val.getPath_setPath p sub w x h

theorem Val.getPath_append : ∀ (p : List String) (v : Val) (n : String),
    v.getPath (p ++ [n]) = (v.getPath p).bind (fun u => u.getField n)
  | [], v, n => by
      simp [Val.getPath]
      cases hf : v.getField n <;> simp [Val.getPath]
  | m :: p, v, n => by
      cases hf : v.getField m with
      | none => simp [Val.getPath, hf]
      | some sub => simp [Val.getPath, hf, Val.getPath_append p sub n]

theorem RefValue.canSet_elim (rv : RefValue) (h : rv.canSet = true) :
    ∃ p, rv = .ref p false := by
  cases rv with
  | ref p r => cases r with
    | false => exact ⟨p, rfl⟩
    | true => simp [RefValue.canSet] at h
  | copy v r => simp [RefValue.canSet] at h

theorem mem_getFieldsList : ∀ (fs : Fields) (rv : RefValue) (tagName : String)
    (g : Field), g ∈ getFieldsList rv tagName fs →
    tagGet g.field.tag tagName ≠ "-" ∧ g.defaultTag = tagName
  | .nil, rv, tagName, g, h => by simp [getFieldsList] at h
  | .cons sf w rest, rv, tagName, g, h => by
      by_cases ht : tagGet sf.tag tagName = "-"
      · simp [getFieldsList, ht] at h
        exact mem_getFieldsList rest rv tagName g h
      · simp [getFieldsList, ht] at h
        cases h with
        | inl hg => subst hg; exact ⟨ht, rfl⟩
        | inr hg => exact mem_getFieldsList rest rv tagName g hg

mutual
theorem Ty.typeOf_zero : ∀ (t : Ty), t.zero.typeOf = t
  | .tint => rfl
  | .tbool => rfl
  | .tstr => rfl
  | .tstruct fs => by simp [Ty.zero, Val.typeOf, TFields.typeOfFields_zero fs]
theorem TFields.typeOfFields_zero : ∀ (fs : TFields), fs.zero.typeOf = fs
  | .nil => rfl
  | .cons sf t rest => by
      simp [TFields.zero, Fields.typeOf, Ty.typeOf_zero t, TFields.typeOfFields_zero rest]
end

theorem Ty.assignableTo_self (t : Ty) : t.assignableTo t = true := by
  simp [Ty.assignableTo]

theorem reflectDeepEqual_self (a : Val) : reflectDeepEqual a a = true := by
  simp [reflectDeepEqual]

theorem reflectDeepEqual_iff (a b : Val) : reflectDeepEqual a b = true ↔ a = b := by
  simp [reflectDeepEqual]

theorem set_err_snd (f : Field) (root : Val) (val : Option Val)
    (e : SetError) (r' : Val) (h : f.Set root val = (.err e, r')) : r' = root := by
  unfold Field.Set at h
  repeat' split at h
  all_goals simp_all

/-- C1: `Set` checks its failure conditions in the source's fixed order and
fails with exactly one typed error: not exported first (regardless of the
handle's settability, the offered value or the stored value), then not
settable, then — for a non-nil offered value — type mismatch carrying the
offered and the required type; otherwise it writes the value into the
field's storage and returns no error. -/
theorem set_error_order (f : Field) (root : Val) (val : Option Val) :
    (f.IsExported = false → f.Set root val = (.err .NotExported, root)) ∧
    (f.IsExported = true → f.value.canSet = false →
      f.Set root val = (.err .NotSettable, root)) ∧
    (∀ v stored, val = some v → f.IsExported = true → f.value.canSet = true →
      f.value.read root = some stored →
      v.typeOf.assignableTo stored.typeOf = false →
      f.Set root val = (.err (.TypeMismatch v.typeOf stored.typeOf), root)) ∧
    (∀ v stored, val = some v → f.IsExported = true → f.value.canSet = true →
      f.value.read root = some stored →
      v.typeOf.assignableTo stored.typeOf = true →
      f.Set root val = (.ok, f.value.write root v)) := by
  refine ⟨fun h1 => ?_, fun h1 h2 => ?_,
    fun v stored hv h1 h2 hr ha => ?_, fun v stored hv h1 h2 hr ha => ?_⟩ <;>
      simp [Field.Set, *]

/-- Closed instance of `set_error_order`: offering an int for the exported,
settable string field `Name` fails with the type mismatch carrying both
types and leaves the record unchanged. -/
theorem set_error_order_witness :
    Field.Set fName rootAnn (some (.vint 1)) =
      (.err (.TypeMismatch .tint .tstr), rootAnn) :=
  (set_error_order fName rootAnn (some (.vint 1))).2.2.1
    (.vint 1) (.vstr "Ann") rfl rfl rfl rfl rfl

/-- C3: after a successful `Set` of an assignable value on an exported
field with a settable handle, `Value` reads back a value deep-structurally
equal to the one written. -/
theorem set_then_value_deep_equal (f : Field) (root v stored : Val)
    (p : List String) (hval : f.value = .ref p false)
    (hexp : f.IsExported = true)
    (hread : f.value.read root = some stored)
    (ha : v.typeOf.assignableTo stored.typeOf = true) :
    f.Set root (some v) = (.ok, root.setPath p v) ∧
    ∃ cur, f.Value (root.setPath p v) = some cur ∧
      reflectDeepEqual cur v = true := by
  have hread' : root.getPath p = some stored := by
    rw [hval] at hread; exact hread
  constructor
  · simp [Field.Set, hexp, hval, RefValue.canSet, RefValue.read, hread', ha,
      RefValue.write]
  · refine ⟨v, ?_, reflectDeepEqual_self v⟩
    simp [Field.Value, RefValue.interface, hval, RefValue.ro, RefValue.read,
      Val.getPath_setPath p root v stored hread']

/-- Closed instance of `set_then_value_deep_equal`: writing "Bob" into the
`Name` field of the example record succeeds and reads back as "Bob". -/
theorem set_then_value_deep_equal_witness :
    Field.Set fName rootAnn (some (.vstr "Bob")) =
      (.ok, rootAnn.setPath ["Name"] (.vstr "Bob")) ∧
    ∃ cur, Field.Value fName (rootAnn.setPath ["Name"] (.vstr "Bob")) = some cur ∧
      reflectDeepEqual cur (.vstr "Bob") = true :=
  set_then_value_deep_equal fName rootAnn (.vstr "Bob") (.vstr "Ann")
    ["Name"] rfl rfl rfl rfl

/-- C5: whenever `Set` — and therefore `Zero`, which delegates to it —
returns one of the three recoverable errors, the record's storage is
returned unchanged: a failed `Set` never partially writes. -/
theorem failed_set_preserves_storage (f : Field) (root : Val)
    (val : Option Val) (e : SetError) (r' : Val) :
    (f.Set root val = (.err e, r') → r' = root) ∧
    (f.Zero root = (.err e, r') → r' = root) := by
  constructor
  · exact set_err_snd f root val e r'
  · intro h
    unfold Field.Zero at h
    split at h
    · simp_all
    · exact set_err_snd f root _ e r' h

/-- Closed instance of `failed_set_preserves_storage` at the unexported
`secret` field of the example record: both `Set` and `Zero` fail with
`NotExported` there, and the storage each returns is the original record,
the latter two conjuncts obtained from the theorem with its error-return
hypothesis discharged on the concrete failing call. -/
theorem failed_set_preserves_storage_witness :
    Field.Set fSecret rootAnn (some (.vint 9)) = (.err .NotExported, rootAnn) ∧
    Field.Zero fSecret rootAnn = (.err .NotExported, rootAnn) ∧
    (Field.Set fSecret rootAnn (some (.vint 9))).2 = rootAnn ∧
    (Field.Zero fSecret rootAnn).2 = rootAnn :=
  ⟨rfl, rfl,
    (failed_set_preserves_storage fSecret rootAnn (some (.vint 9)) .NotExported
      (Field.Set fSecret rootAnn (some (.vint 9))).2).1 rfl,
    (failed_set_preserves_storage fSecret rootAnn (some (.vint 9)) .NotExported
      (Field.Zero fSecret rootAnn).2).2 rfl⟩

/-- C9 counterexample: on an unexported field the nil-interface `Set` does
not reach the dynamic-type query at all — it returns the `NotExported`
error, so the claim's unrestricted "for every field descriptor ... panics
rather than returning NotExported" is false. -/
theorem set_nil_on_unexported_cex :
    Field.Set fSecret rootAnn none = (.err .NotExported, rootAnn) ∧
    ∀ msg r', ¬ Field.Set fSecret rootAnn none = (.panicked msg, r') := by
  refine ⟨rfl, fun msg r' h => ?_⟩
  rw [show Field.Set fSecret rootAnn none = (.err .NotExported, rootAnn) from rfl] at h
  simp at h

/-- C9 as amended: on a field that passes the exported and settable checks,
`Set` with the nil interface value panics when `reflect.ValueOf(nil).Type()`
is queried, instead of returning any of the three recoverable errors. -/
theorem set_nil_panics (f : Field) (root : Val)
    (hexp : f.IsExported = true) (hcan : f.value.canSet = true) :
    f.Set root none =
      (.panicked "reflect: call of reflect.Value.Type on zero Value", root) := by
  simp [Field.Set, hexp, hcan]

/-- Closed instance of `set_nil_panics` at the exported, settable `Name`
field. -/
theorem set_nil_panics_witness :
    Field.Set fName rootAnn none =
      (.panicked "reflect: call of reflect.Value.Type on zero Value", rootAnn) :=
  set_nil_panics fName rootAnn rfl rfl

/-- C10: `Field(name)` on a descriptor holding a non-pointer struct in a
detached (non-addressable) copy panics for every name when it takes the
address of the value, instead of returning a descriptor or the nil
not-found sentinel. -/
theorem field_on_detached_copy_panics (f : Field) (root : Val) (v : Val)
    (ro : Bool) (hval : f.value = .copy v ro) (hkind : v.kind = Kind.struct)
    (name : String) :
    f.Field root name = .panicked "reflect.Value.Addr of unaddressable value" := by
  simp [Field.Field, hval, RefValue.read, hkind, RefValue.canAddr]

/-- Closed instance of `field_on_detached_copy_panics` at a detached empty
struct copy. -/
theorem field_on_detached_copy_panics_witness :
    Field.Field fCopy rootAnn "A" =
      .panicked "reflect.Value.Addr of unaddressable value" :=
  field_on_detached_copy_panics fCopy rootAnn (.vstruct .nil) false rfl rfl "A"

/-- C2: on a parent descriptor with an addressable, writable handle over a
struct, `Field(name)` for an immediate field returns a descriptor whose
handle is again addressable — the extended path into the same root storage,
never a detached copy — so that a subsequent `Set` of an assignable value
through it mutates the original record's storage.  The statement is
generic in the parent's path, so it applies at every nesting depth,
covering lookups through further levels of `Field`. -/
theorem field_lookup_preserves_addressability (f : Field) (root : Val)
    (p : List String) (fs : Fields) (name : String) (sf : StructField)
    (w : Val) (hval : f.value = .ref p false)
    (hroot : root.getPath p = some (.vstruct fs))
    (hget : fs.get? name = some (sf, w)) (hexp : sf.pkgPath = "") :
    f.Field root name =
      .found { value := .ref (p ++ [name]) false, field := sf, defaultTag := "" } ∧
    RefValue.canAddr (.ref (p ++ [name]) false) = true ∧
    (∀ v, v.typeOf.assignableTo w.typeOf = true →
      Field.Set { value := .ref (p ++ [name]) false, field := sf, defaultTag := "" }
          root (some v) =
        (.ok, root.setPath (p ++ [name]) v) ∧
      (root.setPath (p ++ [name]) v).getPath (p ++ [name]) = some v) := by
  have hname : sf.name = name := Fields.get?_name fs name sf w hget
  have happ : root.getPath (p ++ [name]) = some w := by
    rw [Val.getPath_append, hroot]
    simp [Val.getField, hget]
  refine ⟨?_, rfl, fun v ha => ⟨?_, ?_⟩⟩
  · simp [Field.Field, hval, RefValue.read, hroot, Val.kind, RefValue.canAddr,
      RefValue.ro, structVal, hget, RefValue.child, hname, hexp]
  · simp [Field.Set, Field.IsExported, hexp, RefValue.canSet, RefValue.read,
      happ, ha, RefValue.write]
  · exact Val.getPath_setPath (p ++ [name]) root v w happ

/-- Closed instance of `field_lookup_preserves_addressability`, realising
the spec's mutation-through-lookup scenario on `{ N: { X: 1 } }`: looking
up `X` under the descriptor of `N` and setting 5 through the result
mutates the original record, so reading `N.X` from it yields 5. -/
theorem field_lookup_preserves_addressability_witness :
    Field.Field fN rootNested "X" = .found fNX ∧
    Field.Set fNX rootNested (some (.vint 5)) = (.ok, rootNested5) ∧
    rootNested5.getPath ["N", "X"] = some (.vint 5) := by
  have h := field_lookup_preserves_addressability fN rootNested ["N"]
    (.cons sfX (.vint 1) .nil) "X" sfX (.vint 1) rfl rfl rfl rfl
  exact ⟨h.1, (h.2.2 (.vint 5) rfl).1, (h.2.2 (.vint 5) rfl).2⟩

/-- C4: `Zero` computes the zero value of the field's type and delegates to
`Set` with it; it succeeds exactly when the field is exported and its
handle is settable (the spec's "addressable/mutable"), and on success
`IsZero` reads true from the updated storage. -/
theorem zero_succeeds_iff_exported_settable (f : Field) (root stored : Val)
    (hread : f.value.read root = some stored) :
    f.Zero root = f.Set root (some (Ty.zero stored.typeOf)) ∧
    ((f.Zero root).1 = .ok ↔ (f.IsExported = true ∧ f.value.canSet = true)) ∧
    (∀ r', f.Zero root = (.ok, r') → f.IsZero r' = some true) := by
  have hz : f.Zero root = f.Set root (some (Ty.zero stored.typeOf)) := by
    simp [Field.Zero, hread]
  have hok : f.IsExported = true → f.value.canSet = true →
      f.Zero root = (.ok, f.value.write root (Ty.zero stored.typeOf)) := by
    intro h1 h2
    simp [hz, Field.Set, h1, h2, hread, Ty.typeOf_zero, Ty.assignableTo_self]
  refine ⟨hz, ⟨fun h => ?_, fun ⟨h1, h2⟩ => by simp [hok h1 h2]⟩, fun r' h => ?_⟩
  · by_cases h1 : f.IsExported = true
    · by_cases h2 : f.value.canSet = true
      · exact ⟨h1, h2⟩
      · have hb2 : f.value.canSet = false := by simpa using h2
        simp [hz, Field.Set, h1, hb2] at h
    · have hb1 : f.IsExported = false := by simpa using h1
      simp [hz, Field.Set, hb1] at h
  · have h1 : f.IsExported = true := by
      by_contra hb
      have hb1 : f.IsExported = false := by simpa using hb
      simp [hz, Field.Set, hb1] at h
    have h2 : f.value.canSet = true := by
      by_contra hb
      have hb2 : f.value.canSet = false := by simpa using hb
      simp [hz, Field.Set, h1, hb2] at h
    obtain ⟨q, hvq⟩ := RefValue.canSet_elim f.value h2
    have hread' : root.getPath q = some stored := by rw [hvq] at hread; exact hread
    have hr' : r' = root.setPath q (Ty.zero stored.typeOf) := by
      rw [hok h1 h2] at h
      have := (Prod.mk.injEq _ _ _ _).mp h
      rw [← this.2, hvq, RefValue.write]
    subst hr'
    simp [Field.IsZero, Field.Value, RefValue.interface, hvq, RefValue.ro,
      RefValue.read,
      Val.getPath_setPath q root (Ty.zero stored.typeOf) stored hread',
      Ty.typeOf_zero, reflectDeepEqual_self]

/-- Closed instance of `zero_succeeds_iff_exported_settable` at the `Name`
field of the example record. -/
theorem zero_succeeds_iff_exported_settable_witness :
    Field.Zero fName rootAnn =
      Field.Set fName rootAnn (some (Ty.zero (Val.vstr "Ann").typeOf)) ∧
    ((Field.Zero fName rootAnn).1 = .ok ↔
      (Field.IsExported fName = true ∧ RefValue.canSet fName.value = true)) ∧
    (∀ r', Field.Zero fName rootAnn = (.ok, r') →
      Field.IsZero fName r' = some true) :=
  zero_succeeds_iff_exported_settable fName rootAnn (.vstr "Ann") rfl

/-- C6: a field whose tag value under the default tag key is exactly "-"
is absent from the `Fields()` enumeration — no returned descriptor wraps
its metadata — yet `Field(name)` with its name still returns a descriptor
through which its current value is readable: the skip marker only affects
enumeration, never direct lookup. -/
theorem skip_marker_enumeration_only (f : Field) (root : Val)
    (p : List String) (fs : Fields) (name : String) (sf : StructField)
    (w : Val) (hval : f.value = .ref p false) (hexp : f.IsExported = true)
    (hroot : root.getPath p = some (.vstruct fs))
    (hget : fs.get? name = some (sf, w)) (hexpsf : sf.pkgPath = "")
    (htag : tagGet sf.tag f.defaultTag = "-") :
    (∃ l, f.Fields root = some l ∧ ∀ g ∈ l, g.field ≠ sf) ∧
    (∃ g, f.Field root name = .found g ∧ g.field = sf ∧
      g.Value root = some w) := by
  have hname : sf.name = name := Fields.get?_name fs name sf w hget
  have happ : root.getPath (p ++ [name]) = some w := by
    rw [Val.getPath_append, hroot]
    simp [Val.getField, hget]
  constructor
  · refine ⟨getFieldsList f.value f.defaultTag fs, ?_, fun g hg heq => ?_⟩
    · simp [Field.Fields, hexp, getFields, hval, RefValue.read, hroot,
        structVal]
    · have hm := (mem_getFieldsList fs f.value f.defaultTag g hg).1
      rw [heq, htag] at hm
      exact hm rfl
  · refine ⟨(⟨.ref (p ++ [name]) false, sf, ""⟩ : Field), ?_, rfl, ?_⟩
    · simp [Field.Field, hval, RefValue.read, hroot, Val.kind,
        RefValue.canAddr, RefValue.ro, structVal, hget, RefValue.child,
        hname, hexpsf]
    · simp [Field.Value, RefValue.interface, RefValue.ro, RefValue.read, happ]

/-- Closed instance of `skip_marker_enumeration_only` at the spec's example
record: `Age` is tagged `tag:"-"`, is wrapped by no descriptor of
`Fields()`, and `Field("Age")` still reads 30. -/
theorem skip_marker_enumeration_only_witness :
    (∃ l, Field.Fields fAnn rootAnn = some l ∧ ∀ g ∈ l, g.field ≠ sfAge) ∧
    (∃ g, Field.Field fAnn rootAnn "Age" = .found g ∧ g.field = sfAge ∧
      Field.Value g rootAnn = some (.vint 30)) :=
  skip_marker_enumeration_only fAnn rootAnn []
    (.cons sfName (.vstr "Ann") (.cons sfAge (.vint 30)
      (.cons sfSecret (.vint 7) .nil)))
    "Age" sfAge (.vint 30) rfl rfl rfl rfl rfl rfl

/-- C7 counterexample: the descriptor `Field("N")` returns carries the
empty default tag key, not the parent's key "structs" — the source's
struct literal omits `defaultTag`, so the Go zero value "" is used instead
of inheriting it.  This falsifies the claim that every descriptor produced
through `Field(name)` carries the same default tag key as its parent. -/
theorem field_defaultTag_not_inherited_cex :
    ∃ g, Field.Field fRootNested rootNested "N" = .found g ∧
      g.defaultTag ≠ fRootNested.defaultTag :=
  ⟨{ value := .ref ["N"] false, field := sfN, defaultTag := "" },
    rfl, by decide⟩

/-- C7 as amended: descriptors produced by the `Fields()` enumeration
inherit the parent's default tag key, while descriptors produced by
`Field(name)` always carry the empty default tag key — so the latter agree
with the parent only when the parent's key is itself empty. -/
theorem defaultTag_propagation (f : Field) (root : Val) (l : List Field)
    (name : String) (hl : f.Fields root = some l) :
    (∀ g ∈ l, g.defaultTag = f.defaultTag) ∧
    (∀ g, f.Field root name = .found g → g.defaultTag = "") := by
  constructor
  · intro g hg
    by_cases h1 : f.IsExported = true
    · simp [Field.Fields, h1, getFields] at hl
      cases hr : f.value.read root with
      | none => rw [hr] at hl; simp at hl
      | some stored =>
          rw [hr] at hl
          cases stored with
          | vstruct fs =>
              simp [structVal] at hl
              subst hl
              exact (mem_getFieldsList fs f.value f.defaultTag g hg).2
          | vint n => simp [structVal] at hl
          | vbool b => simp [structVal] at hl
          | vstr s => simp [structVal] at hl
    · have hb1 : f.IsExported = false := by simpa using h1
      simp [Field.Fields, hb1] at hl
  · intro g hG
    unfold Field.Field at hG
    repeat' split at hG
    all_goals simp_all
    exact hG.symm ▸ rfl

/-- Closed instance of `defaultTag_propagation` at the example record with
default tag key "tag": both descriptors `Fields()` returns carry "tag",
and any descriptor `Field("Age")` returns carries "". -/
theorem defaultTag_propagation_witness :
    (∀ g ∈ [(⟨.ref ["Name"] false, sfName, "tag"⟩ : Field),
      (⟨.ref ["secret"] true, sfSecret, "tag"⟩ : Field)],
      g.defaultTag = fAnn.defaultTag) ∧
    (∀ g, Field.Field fAnn rootAnn "Age" = .found g → g.defaultTag = "") :=
  defaultTag_propagation fAnn rootAnn _ "Age" rfl

/-- C8: on a readable (non-read-only) handle, `IsZero` returns the deep
structural comparison of the current value with the freshly computed zero
value of its type; it is `true` exactly when the current value equals that
zero value. -/
theorem iszero_iff_deep_equal_zero (f : Field) (root cur : Val)
    (hro : f.value.ro = false) (hread : f.value.read root = some cur) :
    f.IsZero root = some (reflectDeepEqual cur (Ty.zero cur.typeOf)) ∧
    (f.IsZero root = some true ↔ cur = Ty.zero cur.typeOf) := by
  have hv : f.Value root = some cur := by
    simp [Field.Value, RefValue.interface, hro, hread]
  have h1 : f.IsZero root = some (reflectDeepEqual cur (Ty.zero cur.typeOf)) := by
    simp [Field.IsZero, hread, hv]
  refine ⟨h1, ?_⟩
  rw [h1]
  simp [reflectDeepEqual]

/-- Closed instance of `iszero_iff_deep_equal_zero` at the `Name` field of
the example record, whose current value "Ann" is not the zero string. -/
theorem iszero_iff_deep_equal_zero_witness :
    Field.IsZero fName rootAnn =
      some (reflectDeepEqual (.vstr "Ann") (Ty.zero (Val.vstr "Ann").typeOf)) ∧
    (Field.IsZero fName rootAnn = some true ↔
      Val.vstr "Ann" = Ty.zero (Val.vstr "Ann").typeOf) :=
  iszero_iff_deep_equal_zero fName rootAnn (.vstr "Ann") rfl rfl

end Structs
